import Mathlib

/-!
Shallow embedding of the single-file market-making program
(`round_1_v2.0.1.py`): the `Status` snapshot class, the `Calculate`
price-history update, and the `Strategy.market_making` quote engine
with its nested `mm_price`, `mm_spread` and `inventory_skew` helpers,
plus the moving-average computation performed by `Trader.run`.
Prices and quantities are integers in the source; the derived float
statistics (mid price, VWAPs, effective spread) are embedded as
rationals, and the Python `round` builtin (round half to even) is
modelled explicitly.
-/

namespace Prosperity

/-- The Python builtin `round` to an integer: round half to even. -/
def pythonRound (q : ℚ) : Int :=
  let f : Int := ⌊q⌋
  let r : ℚ := q - (f : ℚ)
  if r < 1/2 then f
  else if 1/2 < r then f + 1
  else if f % 2 = 0 then f else f + 1

/-- The Python `round(x, 2)`: round to two decimal places. -/
def round2 (q : ℚ) : ℚ := (pythonRound (q * 100) : ℚ) / 100

/-- One side of the order book: association list of (price, quantity).
Sell quantities are negative in the data model, buy quantities positive. -/
structure OrderDepth where
  sell_orders : List (Int × Int)
  buy_orders : List (Int × Int)
deriving DecidableEq

/-- An outgoing order: positive quantity is a buy, negative a sell. -/
structure Order where
  product : String
  price : Int
  quantity : Int
deriving DecidableEq

/-- Minimum of the keys of an association list (`min(d.keys())`);
`none` when the list is empty (Python raises `ValueError`). -/
def keyMin : List (Int × Int) → Option Int
  | [] => none
  | (p, _) :: rest =>
      match keyMin rest with
      | none => some p
      | some m => some (min p m)

/-- Maximum of the keys of an association list (`max(d.keys())`);
`none` when the list is empty (Python raises `ValueError`). -/
def keyMax : List (Int × Int) → Option Int
  | [] => none
  | (p, _) :: rest =>
      match keyMax rest with
      | none => some p
      | some m => some (max p m)

/-- Dictionary lookup on an association list. -/
def assocLookup {β : Type} : List (Int × β) → Int → Option β
  | [], _ => none
  | (k, v) :: rest, key => if key = k then some v else assocLookup rest key

/-- Dictionary lookup keyed by product name. -/
def assocLookupS {β : Type} : List (String × β) → String → Option β
  | [], _ => none
  | (k, v) :: rest, key => if key = k then some v else assocLookupS rest key

/-- `d[price]` for a book side; total for a key present exactly once.
Defaults to 0 for an absent key (the source only indexes present keys). -/
def qtyAt (l : List (Int × Int)) (price : Int) : Int :=
  (assocLookup l price).getD 0

/-- Sum of `price * quantity` over one book side. -/
def sumPQ (l : List (Int × Int)) : Int := (l.map (fun pq => pq.1 * pq.2)).sum

/-- Sum of `quantity` over one book side. -/
def sumQ (l : List (Int × Int)) : Int := (l.map Prod.snd).sum

/-- `Status.POSITION_LIMITS`. -/
def POSITION_LIMITS : List (String × Int) := [("PEARLS", 20), ("BANANAS", 20)]

/-- `Status.report_position`: the position recorded for the product,
defaulting to 0 when the product has no entry in the position mapping. -/
def report_position (positions : List (String × Int)) (product : String) : Int :=
  match assocLookupS positions product with
  | some position => position
  | none => 0

/-- The cross-sectional snapshot built by `Status.__init__`. -/
structure Status where
  product : String
  position : Int
  limit : Int
  timestamp : Int
  best_ask : Int
  best_bid : Int
  spread : Int
  mid_price : ℚ
  eff_spread : ℚ
  mid_vwap : ℚ
  order_depth : OrderDepth
deriving DecidableEq

/-- `Status.__init__` together with `spread_mid` and `spread_vwap`.
Returns `none` where the Python constructor would raise: an empty book
side (`min`/`max` of an empty key set), an unknown product (missing
position limit), or a zero quantity sum on a side (`ZeroDivisionError`
in the VWAP). -/
def mkStatus (product : String) (positions : List (String × Int))
    (timestamp : Int) (depth : OrderDepth) : Option Status :=
  match keyMin depth.sell_orders, keyMax depth.buy_orders,
      assocLookupS POSITION_LIMITS product with
  | some best_ask, some best_bid, some limit =>
      if sumQ depth.sell_orders = 0 ∨ sumQ depth.buy_orders = 0 then none
      else
        let ask_vwap : ℚ := (sumPQ depth.sell_orders : ℚ) / (sumQ depth.sell_orders : ℚ)
        let bid_vwap : ℚ := (sumPQ depth.buy_orders : ℚ) / (sumQ depth.buy_orders : ℚ)
        some
          { product := product
            position := report_position positions product
            limit := limit
            timestamp := timestamp
            best_ask := best_ask
            best_bid := best_bid
            spread := best_ask - best_bid
            mid_price := ((best_ask + best_bid : Int) : ℚ) / 2
            eff_spread := round2 (ask_vwap - bid_vwap)
            mid_vwap := round2 ((ask_vwap + bid_vwap) / 2)
            order_depth := depth }
  | _, _, _ => none

/-- Nested helper `mm_price` (with its default `sma_scale = 0.75`):
the reservation price. -/
def mm_price (s : Status) (sma : ℚ) : ℚ :=
  let shift : ℚ := if s.timestamp < 400 then 0 else -(3/4) * (s.mid_price - sma)
  s.mid_vwap + shift

/-- Nested helper `mm_spread`: the quoted spread. -/
def mm_spread (s : Status) (trend : ℚ) : ℚ :=
  s.eff_spread * (1 - trend)

/-- Bid-price determination at the top of `inventory_skew`. -/
def bidPriceOf (price spread : ℚ) : Int :=
  let bid_price : Int := ⌈price - spread / 2⌉
  if price ≤ (bid_price : ℚ) then bid_price - 1 else bid_price

/-- Ask-price determination at the top of `inventory_skew`. -/
def askPriceOf (price spread : ℚ) : Int :=
  let ask_price : Int := ⌊price + spread / 2⌋
  if (ask_price : ℚ) ≤ price then bidPriceOf price spread + 1 else ask_price

/-- The stop-loss trigger `abs(self.position) >= 0.9 * self.limit`. -/
abbrev stopLossTriggered (s : Status) : Prop :=
  (9/10 : ℚ) * (s.limit : ℚ) ≤ ((|s.position| : Int) : ℚ)

/-- The quantity shift of `inventory_skew` (with its default
`sma_scale = 2.0`): zero during warm-up, else the rounded
mean-reversion signal. -/
def qtyShift (s : Status) (sma : ℚ) : Int :=
  if s.timestamp < 400 then 0 else pythonRound (-2 * (s.mid_price - sma))

/-- Final bid quantity of the two-sided branch of `inventory_skew`. -/
def bidQuantityOf (s : Status) (sma : ℚ) : Int :=
  let bid_limit := s.limit - max s.position 0
  let bid_skew : Int := ⌊(1/2 : ℚ) * ((max s.position 0 : Int) : ℚ)⌋
  let bid_quantity := max (bid_limit - bid_skew) 0
  max (min bid_limit (bid_quantity + qtyShift s sma)) 0

/-- Final ask quantity of the two-sided branch of `inventory_skew`. -/
def askQuantityOf (s : Status) (sma : ℚ) : Int :=
  let ask_limit := -s.limit - min s.position 0
  let ask_skew : Int := ⌈(1/2 : ℚ) * ((min s.position 0 : Int) : ℚ)⌉
  let ask_quantity := min (ask_limit - ask_skew) 0
  min (max ask_limit (ask_quantity + qtyShift s sma)) 0

/-- Nested helper `inventory_skew`: the stop-loss branch, or the
two-sided quote with the final validity check. -/
def inventory_skew (s : Status) (sma : ℚ) (price spread : ℚ) : List Order :=
  let bid_price := bidPriceOf price spread
  let ask_price := askPriceOf price spread
  if stopLossTriggered s then
    let ask_quantity := qtyAt s.order_depth.sell_orders s.best_ask
    let bid_quantity := qtyAt s.order_depth.buy_orders s.best_bid
    if 0 < s.position then [⟨s.product, s.best_ask, ask_quantity⟩]
    else [⟨s.product, s.best_bid, bid_quantity⟩]
  else
    let bid_quantity := bidQuantityOf s sma
    let ask_quantity := askQuantityOf s sma
    if s.best_ask < bid_price then []
    else if ask_price < s.best_bid then []
    else [⟨s.product, bid_price, bid_quantity⟩, ⟨s.product, ask_price, ask_quantity⟩]

/-- `Strategy.market_making`: compose reservation price, quoted spread
and inventory skew. -/
def market_making (s : Status) (trend sma : ℚ) : List Order :=
  inventory_skew s sma (mm_price s sma) (mm_spread s trend)

/-- Sum of the signed quantities of an order list: the position change
if every order were fully filled. -/
def totalQty (os : List Order) : Int := (os.map Order.quantity).sum

/-- `Calculate.update_price` for one product's window: when the
timestamp is past 400, delete the oldest entry (index 0, a no-op on an
empty list via the caught `IndexError`), then append the new mid price. -/
def update_price (timestamp : Int) (window : List ℚ) (mid_price : ℚ) : List ℚ :=
  (if 400 < timestamp then window.tail else window) ++ [mid_price]

/-- Run `update_price` over a stream of mid prices, one per tick, the
i-th update carrying timestamp `100 * i`. -/
def runFrom (i : Nat) (window : List ℚ) : List ℚ → List ℚ
  | [] => window
  | p :: ps => runFrom (i + 1) (update_price (100 * (i : Int)) window p) ps

/-- The price-history window after feeding a whole stream of mid
prices, one per tick starting at timestamp 0, into an empty window. -/
def runUpdates (ps : List ℚ) : List ℚ := runFrom 0 [] ps

/-- The moving average computed by `Trader.run`
(`sum(data[product]["price"]) / 5`): fixed divisor 5. -/
def tickSma (window : List ℚ) : ℚ := window.sum / 5

/-- Demonstration book used to instantiate theorems with hypotheses:
one ask level (12, -10) and one bid level (8, 10). -/
def demoBook : OrderDepth := ⟨[(12, -10)], [(8, 10)]⟩

/-- Snapshot of `demoBook` at position -17, timestamp 0 (it is the value
of `mkStatus "PEARLS" [("PEARLS", -17)] 0 demoBook`). -/
def demoShort : Status := ⟨"PEARLS", -17, 20, 0, 12, 8, 4, 10, 4, 10, demoBook⟩

/-- Snapshot of `demoBook` at position 0, timestamp 0 (it is the value
of `mkStatus "PEARLS" [("PEARLS", 0)] 0 demoBook`). -/
def demoFlat : Status := ⟨"PEARLS", 0, 20, 0, 12, 8, 4, 10, 4, 10, demoBook⟩

/-- C5: for every snapshot whose timestamp is strictly below 400, the
reservation price equals the mid VWAP (zero price shift) and the
quantity shift is exactly zero, whatever the moving average is. -/
theorem warmup_gating (s : Status) (sma : ℚ) (h : s.timestamp < 400) :
    mm_price s sma = s.mid_vwap ∧ qtyShift s sma = 0 := by
  constructor
  · simp [mm_price, if_pos h]
  · simp [qtyShift, if_pos h]

/-- Witness for C5: the warm-up gate fires on a concrete snapshot with
timestamp 0 and a nonzero moving average. -/
theorem warmup_gating_witness :
    mm_price demoFlat 7 = demoFlat.mid_vwap ∧ qtyShift demoFlat 7 = 0 :=
  warmup_gating demoFlat 7 (by norm_num [demoFlat])

/-- Counterexample for C6 as stated: at reservation price 10 (an
integer) and quoted spread 0, the candidate ask price equals the
reservation price, so `askPrice > reservationPrice` fails (the bid
side of the claim does hold: the bid lands strictly below). -/
theorem candidate_price_counterexample :
    bidPriceOf 10 0 = 9 ∧ askPriceOf 10 0 = 10 ∧
    ¬ ((10 : ℚ) < ((askPriceOf 10 0 : Int) : ℚ)) := by
  refine ⟨?_, ?_, ?_⟩ <;> norm_num [bidPriceOf, askPriceOf]

/-- C6 amended: for every reservation price `r` and non-negative quoted
spread `s`, the candidate bid is strictly below `r`, the candidate ask
is at or above `r` (equality is possible when `r` is an integer), and
the bid is strictly below the ask. -/
theorem candidate_price_bounds (r s : ℚ) (hs : 0 ≤ s) :
    ((bidPriceOf r s : Int) : ℚ) < r ∧ r ≤ ((askPriceOf r s : Int) : ℚ) ∧
    bidPriceOf r s < askPriceOf r s := by
  have hbid : ((bidPriceOf r s : Int) : ℚ) < r := by
    simp only [bidPriceOf]
    split_ifs with h
    · have h1 : ((⌈r - s / 2⌉ : Int) : ℚ) < (r - s / 2) + 1 := Int.ceil_lt_add_one _
      push_cast
      linarith
    · push_neg at h
      exact h
  refine ⟨hbid, ?_⟩
  simp only [askPriceOf]
  split_ifs with h
  · refine ⟨?_, lt_add_one _⟩
    simp only [bidPriceOf]
    split_ifs with hb
    · push_cast
      linarith
    · push_neg at hb
      have h1 : r + s / 2 < ((⌊r + s / 2⌋ : Int) : ℚ) + 1 := Int.lt_floor_add_one _
      have h2 : r - s / 2 ≤ ((⌈r - s / 2⌉ : Int) : ℚ) := Int.le_ceil _
      push_cast
      linarith
  · push_neg at h
    refine ⟨le_of_lt h, ?_⟩
    exact_mod_cast lt_trans hbid h

/-- Witness for the amended C6: at reservation price 19/2 and spread 1
the bid is strictly below, the ask at or above, and bid below ask. -/
theorem candidate_price_bounds_witness :
    ((bidPriceOf (19/2) 1 : Int) : ℚ) < 19/2 ∧
    19/2 ≤ ((askPriceOf (19/2) 1 : Int) : ℚ) ∧
    bidPriceOf (19/2) 1 < askPriceOf (19/2) 1 :=
  candidate_price_bounds (19/2) 1 (by norm_num)

/-- C2: whenever the stop-loss is not triggered, the engine emits either
nothing or a two-sided quote whose bid does not cross the best ask and
whose ask does not cross the best bid. -/
theorem quote_validity (s : Status) (trend sma : ℚ) (h : ¬ stopLossTriggered s) :
    market_making s trend sma = [] ∨
    (bidPriceOf (mm_price s sma) (mm_spread s trend) ≤ s.best_ask ∧
     s.best_bid ≤ askPriceOf (mm_price s sma) (mm_spread s trend) ∧
     market_making s trend sma =
       [⟨s.product, bidPriceOf (mm_price s sma) (mm_spread s trend), bidQuantityOf s sma⟩,
        ⟨s.product, askPriceOf (mm_price s sma) (mm_spread s trend), askQuantityOf s sma⟩]) := by
  simp only [market_making, inventory_skew, if_neg h]
  split_ifs with h1 h2
  · exact Or.inl rfl
  · exact Or.inl rfl
  · exact Or.inr ⟨le_of_not_lt h1, le_of_not_lt h2, rfl⟩

/-- Witness for C2: on the flat demonstration snapshot the quote is
two-sided and inside the book. -/
theorem quote_validity_witness :
    market_making demoFlat (1/2) 0 = [] ∨
    (bidPriceOf (mm_price demoFlat 0) (mm_spread demoFlat (1/2)) ≤ demoFlat.best_ask ∧
     demoFlat.best_bid ≤ askPriceOf (mm_price demoFlat 0) (mm_spread demoFlat (1/2)) ∧
     market_making demoFlat (1/2) 0 =
       [⟨demoFlat.product, bidPriceOf (mm_price demoFlat 0) (mm_spread demoFlat (1/2)),
          bidQuantityOf demoFlat 0⟩,
        ⟨demoFlat.product, askPriceOf (mm_price demoFlat 0) (mm_spread demoFlat (1/2)),
          askQuantityOf demoFlat 0⟩]) :=
  quote_validity demoFlat (1/2) 0 (by norm_num [stopLossTriggered, demoFlat])

/-- If the stop-loss is not triggered, the position is strictly inside
the position limit. -/
theorem not_stopLoss_abs_lt (s : Status) (h : ¬ stopLossTriggered s) :
    |s.position| < s.limit := by
  simp only [stopLossTriggered, not_le] at h
  have h0 : (0 : ℚ) ≤ ((|s.position| : Int) : ℚ) := by
    exact_mod_cast abs_nonneg s.position
  have hL : (0 : ℚ) < (s.limit : ℚ) := by linarith
  have hlt : ((|s.position| : Int) : ℚ) < (s.limit : ℚ) := by linarith
  exact_mod_cast hlt

/-- The bid quantity of the two-sided branch is non-negative. -/
theorem bidQuantityOf_nonneg (s : Status) (sma : ℚ) : 0 ≤ bidQuantityOf s sma :=
  le_max_right _ 0

/-- The bid quantity of the two-sided branch never exceeds the bid room. -/
theorem bidQuantityOf_le (s : Status) (sma : ℚ) :
    bidQuantityOf s sma ≤ max (s.limit - max s.position 0) 0 :=
  max_le_max (min_le_left _ _) le_rfl

/-- The ask quantity of the two-sided branch is non-positive. -/
theorem askQuantityOf_nonpos (s : Status) (sma : ℚ) : askQuantityOf s sma ≤ 0 :=
  min_le_right _ 0

/-- The ask quantity of the two-sided branch never exceeds the ask room
in magnitude. -/
theorem askQuantityOf_ge (s : Status) (sma : ℚ) :
    min (-s.limit - min s.position 0) 0 ≤ askQuantityOf s sma :=
  min_le_min (le_max_left _ _) le_rfl

/-- C1 amended: when the stop-loss is not triggered, filling every
emitted order leaves the position inside the limit band. (As originally
stated over the stop-loss branch as well the claim is false, see the
counterexample: the stop-loss order is sized to the full resting touch
quantity, which can overshoot the limit.) -/
theorem position_limit_respected (s : Status) (trend sma : ℚ)
    (h : ¬ stopLossTriggered s) :
    -s.limit ≤ s.position + totalQty (market_making s trend sma) ∧
    s.position + totalQty (market_making s trend sma) ≤ s.limit := by
  have habs := not_stopLoss_abs_lt s h
  rw [abs_lt] at habs
  have hb0 := bidQuantityOf_nonneg s sma
  have hb1 := bidQuantityOf_le s sma
  have ha0 := askQuantityOf_nonpos s sma
  have ha1 := askQuantityOf_ge s sma
  simp only [market_making, inventory_skew, if_neg h]
  split_ifs with h1 h2
  · simp only [totalQty, List.map_nil, List.sum_nil]
    omega
  · simp only [totalQty, List.map_nil, List.sum_nil]
    omega
  · simp only [totalQty, List.map_cons, List.map_nil, List.sum_cons, List.sum_nil]
    omega

/-- Witness for the amended C1: on the flat demonstration snapshot the
post-fill position stays within the limit. -/
theorem position_limit_respected_witness :
    -demoFlat.limit ≤ demoFlat.position + totalQty (market_making demoFlat (1/2) 0) ∧
    demoFlat.position + totalQty (market_making demoFlat (1/2) 0) ≤ demoFlat.limit :=
  position_limit_respected demoFlat (1/2) 0 (by norm_num [stopLossTriggered, demoFlat])

/-- Book for the C1 counterexample: 100 units resting at the best ask. -/
def deepAskBook : OrderDepth := ⟨[(10, -100)], [(8, 5)]⟩

/-- Snapshot of `deepAskBook` at position 18 (it is the value of
`mkStatus "PEARLS" [("PEARLS", 18)] 0 deepAskBook`). -/
def deepAskStatus : Status := ⟨"PEARLS", 18, 20, 0, 10, 8, 2, 9, 2, 9, deepAskBook⟩

/-- Counterexample for C1 as stated: in the stop-loss branch at
position 18 with 100 units resting at the best ask, the single emitted
sell order has quantity -100, and filling it fully would move the
position to -82, far outside the limit band [-20, 20]. -/
theorem position_limit_counterexample :
    mkStatus "PEARLS" [("PEARLS", 18)] 0 deepAskBook = some deepAskStatus ∧
    market_making deepAskStatus (2/10) 0 = [⟨"PEARLS", 10, -100⟩] ∧
    deepAskStatus.position + totalQty (market_making deepAskStatus (2/10) 0) = -82 ∧
    ¬ (-deepAskStatus.limit ≤
        deepAskStatus.position + totalQty (market_making deepAskStatus (2/10) 0)) := by
  have hmm : market_making deepAskStatus (2/10) 0 = [⟨"PEARLS", 10, -100⟩] := by
    simp only [market_making, inventory_skew, mm_price, mm_spread, bidPriceOf, askPriceOf,
      stopLossTriggered, qtyAt, assocLookup, deepAskStatus, deepAskBook]
    norm_num
  refine ⟨?_, hmm, ?_, ?_⟩
  · simp only [mkStatus, keyMin, keyMax, assocLookupS, sumQ, sumPQ, report_position,
      round2, pythonRound, POSITION_LIMITS, deepAskBook, deepAskStatus]
    norm_num
  · rw [hmm]
    norm_num [totalQty, deepAskStatus]
  · rw [hmm]
    norm_num [totalQty, deepAskStatus]

/-- C3: on a snapshot with position limit 20, the stop-loss fires
exactly when the absolute position reaches 18; at position 18 the
engine emits exactly one order, a sale at the best ask sized to the
full resting ask quantity, and at position -18 exactly one order, a
purchase at the best bid sized to the full resting bid quantity. -/
theorem stop_loss_activation (s : Status) (trend sma : ℚ) (h : s.limit = 20) :
    (stopLossTriggered s ↔ 18 ≤ |s.position|) ∧
    (s.position = 18 →
      market_making s trend sma =
        [⟨s.product, s.best_ask, qtyAt s.order_depth.sell_orders s.best_ask⟩]) ∧
    (s.position = -18 →
      market_making s trend sma =
        [⟨s.product, s.best_bid, qtyAt s.order_depth.buy_orders s.best_bid⟩]) := by
  have hiff : stopLossTriggered s ↔ 18 ≤ |s.position| := by
    have hc : (9/10 : ℚ) * ((20 : Int) : ℚ) = ((18 : Int) : ℚ) := by norm_num
    rw [stopLossTriggered, h, hc, Int.cast_le]
  refine ⟨hiff, ?_, ?_⟩
  · intro hp
    have htrig : stopLossTriggered s := hiff.mpr (by rw [hp]; norm_num)
    have hpos : 0 < s.position := by omega
    simp only [market_making, inventory_skew, if_pos htrig, if_pos hpos]
  · intro hp
    have htrig : stopLossTriggered s := hiff.mpr (by rw [hp]; norm_num)
    have hpos : ¬ 0 < s.position := by omega
    simp only [market_making, inventory_skew, if_pos htrig, if_neg hpos]

/-- Witness for C3: the stop-loss branch on the concrete long snapshot
at position 18 emits the single full-size sale at the best ask. -/
theorem stop_loss_activation_witness :
    (stopLossTriggered deepAskStatus ↔ 18 ≤ |deepAskStatus.position|) ∧
    (deepAskStatus.position = 18 →
      market_making deepAskStatus (2/10) 0 =
        [⟨deepAskStatus.product, deepAskStatus.best_ask,
           qtyAt deepAskStatus.order_depth.sell_orders deepAskStatus.best_ask⟩]) ∧
    (deepAskStatus.position = -18 →
      market_making deepAskStatus (2/10) 0 =
        [⟨deepAskStatus.product, deepAskStatus.best_bid,
           qtyAt deepAskStatus.order_depth.buy_orders deepAskStatus.best_bid⟩]) :=
  stop_loss_activation deepAskStatus (2/10) 0 rfl

/-- Counterexample for C4 as stated: on the same book and parameters,
moving the position up from -17 to 0 (both strictly below the stop-loss
threshold) makes the emitted ask quantity strictly more negative
(0 at position -17 versus -20 at position 0), refuting the claim that
it is "not more negative". -/
theorem inventory_skew_counterexample :
    mkStatus "PEARLS" [("PEARLS", -17)] 0 demoBook = some demoShort ∧
    mkStatus "PEARLS" [("PEARLS", 0)] 0 demoBook = some demoFlat ∧
    ¬ stopLossTriggered demoShort ∧ ¬ stopLossTriggered demoFlat ∧
    market_making demoShort (1/2) 0 = [⟨"PEARLS", 9, 20⟩, ⟨"PEARLS", 11, 0⟩] ∧
    market_making demoFlat (1/2) 0 = [⟨"PEARLS", 9, 20⟩, ⟨"PEARLS", 11, -20⟩] ∧
    askQuantityOf demoFlat 0 < askQuantityOf demoShort 0 := by
  have hc : (⌈(-(17/2) : ℚ)⌉ : Int) = -8 := by
    rw [Int.ceil_eq_iff]
    norm_num
  refine ⟨?_, ?_, ?_, ?_, ?_, ?_, ?_⟩
  · simp only [mkStatus, keyMin, keyMax, assocLookupS, sumQ, sumPQ, report_position,
      round2, pythonRound, POSITION_LIMITS, demoBook, demoShort]
    norm_num
  · simp only [mkStatus, keyMin, keyMax, assocLookupS, sumQ, sumPQ, report_position,
      round2, pythonRound, POSITION_LIMITS, demoBook, demoFlat]
    norm_num
  · norm_num [stopLossTriggered, demoShort]
  · norm_num [stopLossTriggered, demoFlat]
  · simp only [market_making, inventory_skew, mm_price, mm_spread, bidPriceOf, askPriceOf,
      stopLossTriggered, qtyShift, bidQuantityOf, askQuantityOf, qtyAt, assocLookup,
      demoShort, demoBook]
    norm_num [hc]
  · simp only [market_making, inventory_skew, mm_price, mm_spread, bidPriceOf, askPriceOf,
      stopLossTriggered, qtyShift, bidQuantityOf, askQuantityOf, qtyAt, assocLookup,
      demoFlat, demoBook]
    norm_num
  · simp only [askQuantityOf, qtyShift, demoShort, demoFlat]
    norm_num [hc]

/-- C4 amended: holding the snapshot, moving average and parameters
fixed, with both positions strictly below the stop-loss threshold,
moving the position up from p1 to p2 does not increase the bid quantity
and does not increase the ask quantity either: the ask becomes weakly
MORE negative (size skews toward flattening the longer position),
the reverse of the direction in the original claim. -/
theorem inventory_skew_monotone (s : Status) (sma : ℚ) (p1 p2 : Int)
    (h12 : p1 < p2)
    (h1 : ¬ stopLossTriggered { s with position := p1 })
    (h2 : ¬ stopLossTriggered { s with position := p2 }) :
    bidQuantityOf { s with position := p2 } sma ≤
      bidQuantityOf { s with position := p1 } sma ∧
    askQuantityOf { s with position := p2 } sma ≤
      askQuantityOf { s with position := p1 } sma := by
  have hmax : max p1 0 ≤ max p2 0 := by omega
  have hmin : min p1 0 ≤ min p2 0 := by omega
  have hd : ⌊(1/2 : ℚ) * ((max p1 0 : Int) : ℚ)⌋ ≤ ⌊(1/2 : ℚ) * ((max p2 0 : Int) : ℚ)⌋ := by
    apply Int.floor_le_floor
    have hq : ((max p1 0 : Int) : ℚ) ≤ ((max p2 0 : Int) : ℚ) := by exact_mod_cast hmax
    linarith
  have hcl : ⌈(1/2 : ℚ) * ((min p1 0 : Int) : ℚ)⌉ ≤ ⌈(1/2 : ℚ) * ((min p2 0 : Int) : ℚ)⌉ := by
    apply Int.ceil_le_ceil
    have hq : ((min p1 0 : Int) : ℚ) ≤ ((min p2 0 : Int) : ℚ) := by exact_mod_cast hmin
    linarith
  constructor
  · simp only [bidQuantityOf, qtyShift]
    omega
  · simp only [askQuantityOf, qtyShift]
    omega

/-- Witness for the amended C4: on the demonstration snapshot, raising
the position from -17 to 0 weakly lowers both emitted quantities. -/
theorem inventory_skew_monotone_witness :
    bidQuantityOf { demoFlat with position := 0 } 0 ≤
      bidQuantityOf { demoFlat with position := -17 } 0 ∧
    askQuantityOf { demoFlat with position := 0 } 0 ≤
      askQuantityOf { demoFlat with position := -17 } 0 :=
  inventory_skew_monotone demoFlat 0 (-17) 0 (by norm_num)
    (by norm_num [stopLossTriggered, demoFlat])
    (by norm_num [stopLossTriggered, demoFlat])

/-- Once past warm-up with a full window, each update evicts the oldest
entry and appends the newest: the run keeps exactly the last five of
the virtual full history. -/
theorem runFrom_full (ps : List ℚ) : ∀ (i : Nat) (w : List ℚ), 5 ≤ i → w.length = 5 →
    runFrom i w ps = (w ++ ps).drop ps.length := by
  induction ps with
  | nil =>
      intro i w _ _
      simp [runFrom]
  | cons p ps ih =>
      intro i w hi hw
      obtain ⟨a, w', rfl⟩ : ∃ a w', w = a :: w' := by
        cases w with
        | nil => simp at hw
        | cons a w' => exact ⟨a, w', rfl⟩
      rw [runFrom, update_price, if_pos (by omega)]
      rw [ih (i + 1) _ (by omega) (by simp at hw ⊢; omega)]
      simp only [List.tail_cons, List.length_cons, List.cons_append, List.drop_succ_cons,
        List.append_assoc, List.singleton_append, List.nil_append]

/-- Window length invariant: starting a run at tick `i` with a window
of length `min i 5`, the window length after the run is
`min (i + number of updates) 5`. -/
theorem runFrom_length (ps : List ℚ) : ∀ (i : Nat) (w : List ℚ), w.length = min i 5 →
    (runFrom i w ps).length = min (i + ps.length) 5 := by
  induction ps with
  | nil =>
      intro i w hw
      simpa [runFrom] using hw
  | cons p ps ih =>
      intro i w hw
      rw [runFrom, update_price]
      by_cases hi : (400 : Int) < 100 * (i : Int)
      · rw [if_pos hi]
        have hi5 : 5 ≤ i := by push_cast at hi; omega
        rw [ih (i + 1) _ (by simp [List.length_tail]; omega)]
        simp only [List.length_cons]
        omega
      · rw [if_neg hi]
        have hi5 : i ≤ 4 := by push_cast at hi; omega
        rw [ih (i + 1) _ (by simp; omega)]
        simp only [List.length_cons]
        omega

/-- C7: feeding any stream of mid prices tick by tick (timestamps
0, 100, 200, ...) into an empty window, the window never holds more
than 5 entries, and as soon as at least 5 updates have happened it
holds exactly the 5 most recent mid prices in arrival order. -/
theorem history_window (ps : List ℚ) :
    (runUpdates ps).length ≤ 5 ∧
    (5 ≤ ps.length → runUpdates ps = ps.drop (ps.length - 5)) := by
  constructor
  · have h := runFrom_length ps 0 [] (by simp)
    rw [runUpdates, h]
    omega
  · intro h5
    match ps, h5 with
    | a :: b :: c :: d :: e :: rest, _ =>
      rw [runUpdates, runFrom, runFrom, runFrom, runFrom, runFrom]
      simp only [update_price]
      norm_num
      rw [runFrom_full rest 5 [a, b, c, d, e] (by norm_num) (by simp)]
      have harith : rest.length + 1 + 1 + 1 + 1 + 1 - 5 = rest.length := by omega
      rw [harith]
      rfl

/-- Witness for C7: six updates leave exactly the last five mid prices. -/
theorem history_window_witness :
    runUpdates [1, 2, 3, 4, 5, 6] = [2, 3, 4, 5, 6] := by
  have h := (history_window [1, 2, 3, 4, 5, 6]).2 (by norm_num)
  exact h.trans rfl

/-- C8: the moving average divides by the fixed window capacity 5
whatever the actual number of entries, so a short window behaves
exactly as if padded to capacity with zero entries. -/
theorem fixed_divisor_sma (w : List ℚ) (h : w.length ≤ 5) :
    tickSma w = w.sum / 5 ∧
    tickSma w = (w ++ List.replicate (5 - w.length) (0 : ℚ)).sum / 5 := by
  refine ⟨rfl, ?_⟩
  simp [tickSma, List.sum_append, List.sum_replicate, smul_zero]

/-- Witness for C8: a two-entry window averages to sum over 5, the same
as the zero-padded full window. -/
theorem fixed_divisor_sma_witness :
    tickSma [1, 2] = ([1, 2] : List ℚ).sum / 5 ∧
    tickSma [1, 2] = (([1, 2] : List ℚ) ++ List.replicate (5 - ([1, 2] : List ℚ).length) (0 : ℚ)).sum / 5 :=
  fixed_divisor_sma [1, 2] (by norm_num)

/-- C9: snapshot construction fails (produces no snapshot) whenever
either side of the book is empty, and a snapshot is only ever produced
when both sides are non-empty: no default is silently substituted. -/
theorem missing_book_side (product : String) (positions : List (String × Int))
    (ts : Int) (depth : OrderDepth) :
    (depth.sell_orders = [] ∨ depth.buy_orders = [] →
      mkStatus product positions ts depth = none) ∧
    ((mkStatus product positions ts depth).isSome →
      depth.sell_orders ≠ [] ∧ depth.buy_orders ≠ []) := by
  have hnone : depth.sell_orders = [] ∨ depth.buy_orders = [] →
      mkStatus product positions ts depth = none := by
    rintro (h | h)
    · have hk : keyMin depth.sell_orders = none := by rw [h, keyMin]
      rw [mkStatus, hk]
    · have hk : keyMax depth.buy_orders = none := by rw [h, keyMax]
      rw [mkStatus, hk]
      cases keyMin depth.sell_orders <;> rfl
  refine ⟨hnone, fun hsome => ⟨fun hs => ?_, fun hb => ?_⟩⟩
  · rw [hnone (Or.inl hs)] at hsome
    simp at hsome
  · rw [hnone (Or.inr hb)] at hsome
    simp at hsome

/-- Witness for C9: an empty sell side yields no snapshot, and the
demonstration snapshot construction on a two-sided book succeeds. -/
theorem missing_book_side_witness :
    mkStatus "PEARLS" [] 0 ⟨[], [(8, 5)]⟩ = none :=
  (missing_book_side "PEARLS" [] 0 ⟨[], [(8, 5)]⟩).1 (Or.inl rfl)

/-- C10: when the instrument has no entry in the position mapping, the
reported position is exactly 0, and the whole snapshot — and hence the
whole quote computation — is identical to one built with an explicit
position entry of 0. -/
theorem absent_position_defaults (product : String) (positions : List (String × Int))
    (ts : Int) (depth : OrderDepth) (trend sma : ℚ)
    (h : assocLookupS positions product = none) :
    report_position positions product = 0 ∧
    mkStatus product positions ts depth = mkStatus product ((product, 0) :: positions) ts depth ∧
    (mkStatus product positions ts depth).map (fun s => market_making s trend sma) =
      (mkStatus product ((product, 0) :: positions) ts depth).map
        (fun s => market_making s trend sma) := by
  have hrp : report_position positions product = 0 := by
    rw [report_position, h]
  have hrp2 : report_position ((product, 0) :: positions) product = 0 := by
    rw [report_position, assocLookupS, if_pos rfl]
  have hmk : mkStatus product positions ts depth =
      mkStatus product ((product, 0) :: positions) ts depth := by
    rw [mkStatus, mkStatus, hrp, hrp2]
  exact ⟨hrp, hmk, by rw [hmk]⟩

/-- Witness for C10: with an empty position mapping the reported
position is 0 and the snapshot agrees with the explicit-zero one. -/
theorem absent_position_defaults_witness :
    report_position [] "PEARLS" = 0 ∧
    mkStatus "PEARLS" [] 0 demoBook = mkStatus "PEARLS" [("PEARLS", 0)] 0 demoBook ∧
    (mkStatus "PEARLS" [] 0 demoBook).map (fun s => market_making s (1/2) 0) =
      (mkStatus "PEARLS" [("PEARLS", 0)] 0 demoBook).map (fun s => market_making s (1/2) 0) :=
  absent_position_defaults "PEARLS" [] 0 demoBook (1/2) 0 rfl

end Prosperity
